/-
  Verification of the ticket data-access layer of `ticketing_app.py`
  (class `TicketingSystem`, backed by SQLite).

  Shallow embedding: the tickets and comments tables are lists of rows in
  rowid (insertion) order; `AUTOINCREMENT` ids are modelled by counters.
  Timestamps are the ISO strings produced by `now_iso()`, compared with
  Lean's lexicographic `String` order, which coincides with SQLite's
  BINARY text collation on such strings.  Statement-level failures
  (CHECK-constraint or foreign-key rejections raised by sqlite3) are
  modelled with `Except DbError`; a failed statement leaves the store
  unchanged.
-/
import Mathlib

namespace Ticketing

/-- `STATUSES` from the source: the legal ticket statuses. -/
def STATUSES : List String := ["open", "in_progress", "closed"]

/-- `PRIORITIES` from the source: the legal ticket priorities. -/
def PRIORITIES : List String := ["low", "medium", "high", "urgent"]

/-- A row of the `tickets` table (columns in schema order).
`description` is inserted by `create_ticket` from the dataclass field of
type `str`, so it is a plain string; `requester`, `assignee` and `tags`
are nullable columns. -/
structure Ticket where
  id : Nat
  title : String
  description : String
  status : String
  priority : String
  requester : Option String
  assignee : Option String
  tags : Option String
  created_at : String
  updated_at : String
deriving DecidableEq

/-- A row of the `comments` table. -/
structure Comment where
  id : Nat
  ticket_id : Nat
  author : Option String
  body : String
  created_at : String
deriving DecidableEq

/-- The SQLite database: both tables in rowid order plus the
`AUTOINCREMENT` counters. -/
structure Store where
  tickets : List Ticket
  comments : List Comment
  nextTicketId : Nat
  nextCommentId : Nat
deriving DecidableEq

/-- A storage-level rejection raised by sqlite3 (CHECK constraint or
foreign-key violation). -/
inductive DbError where
  | constraintViolation
deriving DecidableEq

/-- The CHECK constraints of the `tickets` table:
`status IN ('open','in_progress','closed')` and
`priority IN ('low','medium','high','urgent')`. -/
def checkOk (t : Ticket) : Bool :=
  STATUSES.contains t.status && PRIORITIES.contains t.priority

/-- The caller-supplied fields of a new ticket (the `Ticket` dataclass
without `id` and timestamps, which `create_ticket` assigns itself). -/
structure NewTicket where
  title : String
  description : String
  status : String
  priority : String
  requester : Option String
  assignee : Option String
  tags : Option String
deriving DecidableEq

/-- `TicketingSystem.create_ticket`: inserts one row with
`created_at = updated_at = now`; the INSERT fails on a CHECK-constraint
violation.  Returns `cur.lastrowid`. -/
def create_ticket (s : Store) (t : NewTicket) (now : String) :
    Except DbError (Store × Nat) :=
  let row : Ticket :=
    ⟨s.nextTicketId, t.title, t.description, t.status, t.priority,
      t.requester, t.assignee, t.tags, now, now⟩
  if checkOk row then
    .ok ({ s with tickets := s.tickets ++ [row],
                  nextTicketId := s.nextTicketId + 1 }, s.nextTicketId)
  else
    .error .constraintViolation

/-- `TicketingSystem.get_ticket`: `SELECT * FROM tickets WHERE id = ?`,
`None` when no row matches. -/
def get_ticket (s : Store) (ticket_id : Nat) : Option Ticket :=
  s.tickets.find? (fun t => t.id == ticket_id)

/-- The sparse update mapping passed to `update_ticket`.  In this program
the caller (the edit form) only ever puts the seven editable columns in
the dict, so the patch is modelled as one optional slot per such column;
`none` means the key is absent.  For the nullable columns the patched
value is itself an `Option`. -/
structure Patch where
  title : Option String := none
  description : Option String := none
  status : Option String := none
  priority : Option String := none
  requester : Option (Option String) := none
  assignee : Option (Option String) := none
  tags : Option (Option String) := none
deriving DecidableEq

/-- The empty dict `{}`. -/
def Patch.isEmpty (p : Patch) : Bool :=
  p.title.isNone && p.description.isNone && p.status.isNone &&
  p.priority.isNone && p.requester.isNone && p.assignee.isNone &&
  p.tags.isNone

/-- Effect of the generated `UPDATE ... SET` on one row: each column
present in the patch is assigned, every other column keeps its value,
and `updated_at` is always assigned `now`. -/
def applyPatch (t : Ticket) (p : Patch) (now : String) : Ticket :=
  { t with
    title := p.title.getD t.title
    description := p.description.getD t.description
    status := p.status.getD t.status
    priority := p.priority.getD t.priority
    requester := p.requester.getD t.requester
    assignee := p.assignee.getD t.assignee
    tags := p.tags.getD t.tags
    updated_at := now }

/-- `TicketingSystem.update_ticket`: empty dict returns `False` at once
with no SQL executed; otherwise `UPDATE tickets SET <patch columns>,
updated_at = ? WHERE id = ?` runs and the result is
`cur.rowcount > 0`.  When the updated row would violate a CHECK
constraint, sqlite3 raises and the statement has no effect. -/
def update_ticket (s : Store) (ticket_id : Nat) (p : Patch) (now : String) :
    Except DbError (Store × Bool) :=
  if p.isEmpty then
    .ok (s, false)
  else
    match s.tickets.find? (fun t => t.id == ticket_id) with
    | none => .ok (s, false)
    | some t =>
      if checkOk (applyPatch t p now) then
        .ok ({ s with
                tickets := s.tickets.map
                  (fun u => if u.id == ticket_id then applyPatch u p now else u) },
              true)
      else
        .error .constraintViolation

/-- `TicketingSystem.add_comment`: `INSERT INTO comments ...` with
`created_at = now`.  With `PRAGMA foreign_keys = ON` the insert is
rejected when no ticket has id `ticket_id`; otherwise it returns
`cur.lastrowid`. -/
def add_comment (s : Store) (ticket_id : Nat) (author : Option String)
    (body : String) (now : String) : Except DbError (Store × Nat) :=
  if s.tickets.any (fun t => t.id == ticket_id) then
    .ok ({ s with
            comments := s.comments ++
              [⟨s.nextCommentId, ticket_id, author, body, now⟩],
            nextCommentId := s.nextCommentId + 1 }, s.nextCommentId)
  else
    .error .constraintViolation

/-- `TicketingSystem.get_comments`: comments of one ticket
`ORDER BY id ASC`.  Comments are stored in insertion order and ids are
assigned increasingly, so the rowid order filtered by ticket is already
id-ascending. -/
def get_comments (s : Store) (ticket_id : Nat) : List Comment :=
  s.comments.filter (fun c => c.ticket_id == ticket_id)

/-- The sidebar filter dict passed to `list_tickets`;
`none` stands for a missing key and `some ""` for a blank entry
(both are falsy in `filters.get(...)`). -/
structure Filters where
  status : Option String := none
  priority : Option String := none
  assignee : Option String := none
deriving DecidableEq

/-- The WHERE clause assembled by `list_tickets`: one equality conjunct
per truthy filter value.  `assignee = ?` on a NULL assignee is not a
match (SQL three-valued logic). -/
def matchesFilters (f : Filters) (t : Ticket) : Bool :=
  (match f.status with
   | some v => if v == "" then true else t.status == v
   | none => true) &&
  (match f.priority with
   | some v => if v == "" then true else t.priority == v
   | none => true) &&
  (match f.assignee with
   | some v =>
     if v == "" then true else
       match t.assignee with
       | some a => a == v
       | none => false
   | none => true)

/-- `CASE status WHEN 'open' THEN 0 WHEN 'in_progress' THEN 1 ELSE 2 END`. -/
def statusRank (s : String) : Nat :=
  if s == "open" then 0 else if s == "in_progress" then 1 else 2

/-- `CASE priority WHEN 'urgent' THEN 0 WHEN 'high' THEN 1
WHEN 'medium' THEN 2 ELSE 3 END`. -/
def priorityRank (p : String) : Nat :=
  if p == "urgent" then 0 else if p == "high" then 1
  else if p == "medium" then 2 else 3

/-- The three-level ORDER BY of `list_tickets` as a Prop:
status rank ascending, then priority rank ascending, then `created_at`
descending. -/
def TicketLe (a b : Ticket) : Prop :=
  statusRank a.status < statusRank b.status ∨
  (statusRank a.status = statusRank b.status ∧
    (priorityRank a.priority < priorityRank b.priority ∨
     (priorityRank a.priority = priorityRank b.priority ∧
      b.created_at ≤ a.created_at)))

instance (a b : Ticket) : Decidable (TicketLe a b) := by
  unfold TicketLe; infer_instance

/-- Boolean form of `TicketLe`, used as the sort comparator. -/
def listLe (a b : Ticket) : Bool := decide (TicketLe a b)

/-- The ORDER BY of `search` as a Prop: `updated_at` descending. -/
def updatedDesc (a b : Ticket) : Prop := b.updated_at ≤ a.updated_at

instance (a b : Ticket) : Decidable (updatedDesc a b) := by
  unfold updatedDesc; infer_instance

/-- Comparator of `search`: `updated_at` descending. -/
def searchLe (a b : Ticket) : Bool := decide (updatedDesc a b)

/-- The ORDER BY of `export_csv_bytes` as a Prop: id ascending. -/
def idAsc (a b : Ticket) : Prop := a.id ≤ b.id

instance (a b : Ticket) : Decidable (idAsc a b) := by
  unfold idAsc; infer_instance

/-- Comparator for `export_csv_bytes`: `ORDER BY id ASC`. -/
def idLe (a b : Ticket) : Bool := decide (idAsc a b)

/-- Insert into a sorted list (auxiliary of the sort that models
SQLite's ORDER BY). -/
def insSorted (le : Ticket → Ticket → Bool) (x : Ticket) :
    List Ticket → List Ticket
  | [] => [x]
  | y :: ys => if le x y then x :: y :: ys else y :: insSorted le x ys

/-- Sorting that models SQLite's ORDER BY: the result is a permutation
of the input that is pairwise ordered by the comparator. -/
def sortBy (le : Ticket → Ticket → Bool) : List Ticket → List Ticket
  | [] => []
  | x :: xs => insSorted le x (sortBy le xs)

/-- `TicketingSystem.list_tickets`: conjunctive truthy filters, then the
fixed three-level ORDER BY. -/
def list_tickets (s : Store) (f : Filters) : List Ticket :=
  sortBy listLe (s.tickets.filter (matchesFilters f))

/-- SQLite's default `LIKE` case folding: ASCII letters only. -/
def asciiLower (c : Char) : Char :=
  if 'A' ≤ c ∧ c ≤ 'Z' then Char.ofNat (c.toNat + 32) else c

/-- SQLite `LIKE` pattern matching (no ESCAPE clause): `%` matches any
run of characters, `_` any single character, anything else matches one
character up to ASCII case.  Fuel-indexed so the function is structural;
`likeMatch` below supplies sufficient fuel. -/
def likeAux : Nat → List Char → List Char → Bool
  | 0, _, _ => false
  | fuel + 1, ps, s =>
    match ps with
    | [] => s.isEmpty
    | p :: ps2 =>
      if p = '%' then
        likeAux fuel ps2 s ||
          (match s with
           | [] => false
           | _ :: s2 => likeAux fuel (p :: ps2) s2)
      else
        match s with
        | [] => false
        | c :: s2 =>
          if p = '_' then likeAux fuel ps2 s2
          else (asciiLower p == asciiLower c) && likeAux fuel ps2 s2

/-- `pattern LIKE text` on character lists. -/
def likeMatch (ps s : List Char) : Bool :=
  likeAux (ps.length + s.length + 1) ps s

/-- `text LIKE pattern` at the string level (argument order of SQL:
pattern first here for convenience). -/
def likeStr (pattern text : String) : Bool :=
  likeMatch pattern.data text.data

/-- The WHERE clause of `search` on one row:
`title LIKE ? OR description LIKE ? OR tags LIKE ?` (a NULL `tags`
never matches; SQL three-valued logic). -/
def likeRow (like : String) (t : Ticket) : Bool :=
  likeStr like t.title || likeStr like t.description ||
    (match t.tags with
     | some tg => likeStr like tg
     | none => false)

/-- `TicketingSystem.search`: rows matching `'%' || query || '%'` in
`title`, `description` or `tags`, ordered by `updated_at` descending. -/
def search (s : Store) (query : String) : List Ticket :=
  sortBy searchLe (s.tickets.filter (likeRow ("%" ++ query ++ "%")))

/-- `q` is a prefix of `s`, comparing characters up to ASCII case. -/
def isPrefixB : List Char → List Char → Bool
  | [], _ => true
  | _ :: _, [] => false
  | a :: as, b :: bs => (asciiLower a == asciiLower b) && isPrefixB as bs

/-- `q` occurs inside `s` as a contiguous substring, up to ASCII case. -/
def isSubB : List Char → List Char → Bool
  | q, [] => q.isEmpty
  | q, c :: s2 => isPrefixB q (c :: s2) || isSubB q s2

/-- Case-insensitive (ASCII) substring containment at the string level:
what the spec means by "contains the query as a case-insensitive
substring". -/
def containsCI (q x : String) : Bool := isSubB q.data x.data

/-- The query contains no `LIKE` metacharacter. -/
def noWild (q : String) : Bool :=
  q.data.all (fun c => !(c == '%') && !(c == '_'))

/-- The spec's search predicate on one ticket: the query occurs in
`title`, `description` or `tags` (disjunctive; a NULL `tags` holds no
substring). -/
def ticketMatches (q : String) (t : Ticket) : Bool :=
  containsCI q t.title || containsCI q t.description ||
    (match t.tags with
     | some tg => containsCI q tg
     | none => false)

/- ---------------- CSV export (`export_csv_bytes`) ---------------- -/

/-- A character that forces quoting under the csv module's minimal
quoting: the delimiter, the quote char, or a line break. -/
def needsQuote (c : Char) : Bool :=
  c == ',' || c == '"' || c == '\n' || c == '\r'

/-- Double every quote character (the csv escaping inside a quoted
field). -/
def doubleQ : List Char → List Char
  | [] => []
  | c :: cs => if c = '"' then '"' :: '"' :: doubleQ cs else c :: doubleQ cs

/-- Serialize one field with minimal quoting. -/
def escapeField (f : List Char) : List Char :=
  if f.any needsQuote then '"' :: (doubleQ f ++ ['"']) else f

/-- Join already-escaped fields with commas. -/
def joinComma : List (List Char) → List Char
  | [] => []
  | [f] => f
  | f :: fs => f ++ ',' :: joinComma fs

/-- One CSV record: comma-joined escaped fields plus the line
terminator used by pandas `to_csv`. -/
def writeRecord (fs : List (List Char)) : List Char :=
  joinComma (fs.map escapeField) ++ ['\n']

/-- A whole CSV text: the records in order. -/
def writeCsv : List (List (List Char)) → List Char
  | [] => []
  | r :: rs => writeRecord r ++ writeCsv rs

/-- Read an unquoted field: everything up to the next delimiter or line
break. -/
def parseRawField : List Char → List Char × List Char
  | [] => ([], [])
  | c :: cs =>
    if c = ',' ∨ c = '\n' then ([], c :: cs)
    else (c :: (parseRawField cs).1, (parseRawField cs).2)

/-- Read a quoted field body (the opening quote is already consumed):
`""` is a literal quote, a lone quote closes the field. -/
def parseQuotedField : List Char → List Char × List Char
  | [] => ([], [])
  | c :: cs =>
    if c = '"' then
      match cs with
      | c2 :: cs2 =>
        if c2 = '"' then
          ('"' :: (parseQuotedField cs2).1, (parseQuotedField cs2).2)
        else ([], cs)
      | [] => ([], [])
    else (c :: (parseQuotedField cs).1, (parseQuotedField cs).2)

/-- Read one field, quoted or raw. -/
def parseField (cs : List Char) : List Char × List Char :=
  match cs with
  | '"' :: cs2 => parseQuotedField cs2
  | _ => parseRawField cs

/-- Read one record: fields separated by commas, ended by a line break
(or the end of input).  Fuel-indexed so the function is structural. -/
def parseRecordAux : Nat → List Char → List (List Char) × List Char
  | 0, cs => ([], cs)
  | fuel + 1, cs =>
    match (parseField cs).2 with
    | c :: r2 =>
      if c = ',' then
        ((parseField cs).1 :: (parseRecordAux fuel r2).1,
          (parseRecordAux fuel r2).2)
      else if c = '\n' then ([(parseField cs).1], r2)
      else ([(parseField cs).1], c :: r2)
    | [] => ([(parseField cs).1], [])

/-- Read all records.  Fuel-indexed so the function is structural. -/
def parseCsvAux : Nat → List Char → List (List (List Char))
  | 0, _ => []
  | _ + 1, [] => []
  | fuel + 1, c :: cs =>
    (parseRecordAux ((c :: cs).length + 1) (c :: cs)).1 ::
      parseCsvAux fuel (parseRecordAux ((c :: cs).length + 1) (c :: cs)).2

/-- Parse a CSV text back into its records. -/
def csvParse (s : String) : List (List String) :=
  (parseCsvAux (s.data.length + 1) s.data).map (fun r => r.map List.asString)

/-- The header written by `export_csv_bytes`: the column names of
`SELECT * FROM tickets`, in schema order. -/
def csvHeader : List String :=
  ["id", "title", "description", "status", "priority", "requester",
   "assignee", "tags", "created_at", "updated_at"]

/-- One exported data row: the raw column values of a ticket, NULLs
rendered as the empty cell (pandas' default `na_rep`), the integer id
in decimal, enum fields as their raw strings and timestamps exactly as
stored. -/
def ticketRecord (t : Ticket) : List String :=
  [toString t.id, t.title, t.description, t.status, t.priority,
   t.requester.getD "", t.assignee.getD "", t.tags.getD "",
   t.created_at, t.updated_at]

/-- The tickets in export order: `ORDER BY id ASC`. -/
def sortById (ts : List Ticket) : List Ticket := sortBy idLe ts

/-- `TicketingSystem.export_csv_bytes` (the UTF-8 text of the returned
bytes): `SELECT * FROM tickets ORDER BY id ASC` is loaded into a pandas
DataFrame and written with `to_csv(index=False)`.  With at least one
row this yields the header record followed by one record per ticket;
with no rows the DataFrame has no columns and `to_csv` emits a single
blank line. -/
def export_csv_bytes (s : Store) : String :=
  if s.tickets.isEmpty then "\n"
  else
    ⟨writeCsv ((csvHeader :: (sortById s.tickets).map ticketRecord).map
        (fun r => r.map String.data))⟩

/- ---------------- operation traces (for the timestamp invariant) ---- -/

/-- One call into the data-access layer, without its timestamp. -/
inductive Op where
  | create (t : NewTicket)
  | update (ticket_id : Nat) (p : Patch)
  | comment (ticket_id : Nat) (author : Option String) (body : String)
  | read (ticket_id : Nat)

/-- The store after a possibly-failing operation: a failed statement
leaves the store unchanged. -/
def commit (s : Store) {α : Type} (r : Except DbError (Store × α)) : Store :=
  match r with
  | .ok (s2, _) => s2
  | .error _ => s

/-- Effect of one call, stamped with the clock value `now` it observes.
Read operations (`get_ticket`, `list_tickets`, `search`,
`get_comments`, `export_csv_bytes`) never write. -/
def step (s : Store) : Op → String → Store
  | .create t, now => commit s (create_ticket s t now)
  | .update i p, now => commit s (update_ticket s i p now)
  | .comment i a b, now => commit s (add_comment s i a b now)
  | .read _, _ => s

/-- Run a stamped trace. -/
def run (s : Store) : List (Op × String) → Store
  | [] => s
  | (op, now) :: rest => run (step s op now) rest

/-- The stamps of a trace are non-decreasing, starting no earlier than
`c`. -/
def timesMono : String → List String → Prop
  | _, [] => True
  | c, t :: ts => c ≤ t ∧ timesMono t ts

/-- Audit-timestamp invariant with the clock bound `c`: every ticket has
`created_at ≤ updated_at` and was last touched no later than `c`. -/
def TimeInv (s : Store) (c : String) : Prop :=
  ∀ t ∈ s.tickets, t.created_at ≤ t.updated_at ∧ t.updated_at ≤ c

instance {ε α : Type} [DecidableEq ε] [DecidableEq α] :
    DecidableEq (Except ε α) := fun x y =>
  match x, y with
  | .ok a, .ok b => decidable_of_iff (a = b) (by simp)
  | .error a, .error b => decidable_of_iff (a = b) (by simp)
  | .ok _, .error _ => isFalse (fun h => Except.noConfusion h)
  | .error _, .ok _ => isFalse (fun h => Except.noConfusion h)

/- ---------------- sorting lemmas ---------------- -/

theorem insSorted_perm (le : Ticket → Ticket → Bool) (x : Ticket) :
    ∀ l : List Ticket, List.Perm (insSorted le x l) (x :: l)
  | [] => List.Perm.refl _
  | y :: ys => by
    simp only [insSorted]
    split
    · exact List.Perm.refl _
    · exact ((insSorted_perm le x ys).cons y).trans (List.Perm.swap x y ys)

theorem sortBy_perm (le : Ticket → Ticket → Bool) :
    ∀ l : List Ticket, List.Perm (sortBy le l) l
  | [] => List.Perm.refl _
  | x :: xs =>
    (insSorted_perm le x (sortBy le xs)).trans ((sortBy_perm le xs).cons x)

theorem insSorted_pairwise (le : Ticket → Ticket → Bool)
    (htot : ∀ a b, le a b = true ∨ le b a = true)
    (htrans : ∀ a b c, le a b = true → le b c = true → le a c = true)
    (x : Ticket) :
    ∀ l : List Ticket, List.Pairwise (fun a b => le a b = true) l →
      List.Pairwise (fun a b => le a b = true) (insSorted le x l)
  | [], _ => List.pairwise_singleton _ x
  | y :: ys, h => by
    rcases List.pairwise_cons.1 h with ⟨hy, hys⟩
    simp only [insSorted]
    split
    case isTrue hxy =>
      refine List.pairwise_cons.2 ⟨?_, h⟩
      intro z hz
      rcases List.mem_cons.1 hz with rfl | hz
      · exact hxy
      · exact htrans x y z hxy (hy z hz)
    case isFalse hxy =>
      refine List.pairwise_cons.2 ⟨?_, insSorted_pairwise le htot htrans x ys hys⟩
      intro z hz
      rcases List.mem_cons.1 ((insSorted_perm le x ys).mem_iff.1 hz) with rfl | hz
      · rcases htot z y with h1 | h1
        · exact absurd h1 hxy
        · exact h1
      · exact hy z hz

theorem sortBy_pairwise (le : Ticket → Ticket → Bool)
    (htot : ∀ a b, le a b = true ∨ le b a = true)
    (htrans : ∀ a b c, le a b = true → le b c = true → le a c = true) :
    ∀ l : List Ticket, List.Pairwise (fun a b => le a b = true) (sortBy le l)
  | [] => List.Pairwise.nil
  | x :: xs =>
    insSorted_pairwise le htot htrans x (sortBy le xs)
      (sortBy_pairwise le htot htrans xs)

theorem TicketLe_total (a b : Ticket) : TicketLe a b ∨ TicketLe b a := by
  unfold TicketLe
  rcases Nat.lt_trichotomy (statusRank a.status) (statusRank b.status)
    with h | h | h
  · exact Or.inl (Or.inl h)
  · rcases Nat.lt_trichotomy (priorityRank a.priority)
      (priorityRank b.priority) with h2 | h2 | h2
    · exact Or.inl (Or.inr ⟨h, Or.inl h2⟩)
    · rcases le_total a.created_at b.created_at with h3 | h3
      · exact Or.inr (Or.inr ⟨h.symm, Or.inr ⟨h2.symm, h3⟩⟩)
      · exact Or.inl (Or.inr ⟨h, Or.inr ⟨h2, h3⟩⟩)
    · exact Or.inr (Or.inr ⟨h.symm, Or.inl h2⟩)
  · exact Or.inr (Or.inl h)

theorem TicketLe_trans (a b c : Ticket) :
    TicketLe a b → TicketLe b c → TicketLe a c := by
  unfold TicketLe
  intro h1 h2
  rcases h1 with h1 | ⟨e1, h1⟩ <;> rcases h2 with h2 | ⟨e2, h2⟩
  · exact Or.inl (lt_trans h1 h2)
  · exact Or.inl (by omega)
  · exact Or.inl (by omega)
  · refine Or.inr ⟨by omega, ?_⟩
    rcases h1 with h1 | ⟨q1, s1⟩ <;> rcases h2 with h2 | ⟨q2, s2⟩
    · exact Or.inl (lt_trans h1 h2)
    · exact Or.inl (by omega)
    · exact Or.inl (by omega)
    · exact Or.inr ⟨by omega, le_trans s2 s1⟩

theorem listLe_total (a b : Ticket) : listLe a b = true ∨ listLe b a = true := by
  rcases TicketLe_total a b with h | h
  · exact Or.inl (decide_eq_true h)
  · exact Or.inr (decide_eq_true h)

theorem listLe_trans (a b c : Ticket) :
    listLe a b = true → listLe b c = true → listLe a c = true := by
  intro h1 h2
  exact decide_eq_true
    (TicketLe_trans a b c (of_decide_eq_true h1) (of_decide_eq_true h2))

theorem searchLe_total (a b : Ticket) :
    searchLe a b = true ∨ searchLe b a = true := by
  rcases le_total b.updated_at a.updated_at with h | h
  · exact Or.inl (decide_eq_true (show updatedDesc a b from h))
  · exact Or.inr (decide_eq_true (show updatedDesc b a from h))

theorem searchLe_trans (a b c : Ticket) :
    searchLe a b = true → searchLe b c = true → searchLe a c = true := by
  intro h1 h2
  have g1 : updatedDesc a b := of_decide_eq_true h1
  have g2 : updatedDesc b c := of_decide_eq_true h2
  exact decide_eq_true (show updatedDesc a c from le_trans g2 g1)

theorem idLe_total (a b : Ticket) : idLe a b = true ∨ idLe b a = true := by
  rcases Nat.le_total a.id b.id with h | h
  · exact Or.inl (decide_eq_true (show idAsc a b from h))
  · exact Or.inr (decide_eq_true (show idAsc b a from h))

theorem idLe_trans (a b c : Ticket) :
    idLe a b = true → idLe b c = true → idLe a c = true := by
  intro h1 h2
  have g1 : idAsc a b := of_decide_eq_true h1
  have g2 : idAsc b c := of_decide_eq_true h2
  exact decide_eq_true (show idAsc a c from Nat.le_trans g1 g2)

/- ---------------- fixtures ---------------- -/

/-- Fixture ticket A of the spec: open, low, created at time 1. -/
def tA : Ticket := ⟨1, "A", "", "open", "low", none, none, none, "1", "1"⟩

/-- Fixture ticket B of the spec: open, urgent, created at time 2. -/
def tB : Ticket := ⟨2, "B", "", "open", "urgent", none, none, none, "2", "2"⟩

/-- Fixture ticket C of the spec: closed, urgent, created at time 3. -/
def tC : Ticket := ⟨3, "C", "", "closed", "urgent", none, none, none, "3", "3"⟩

/-- The fixture store holding A, B, C. -/
def fixtureStore : Store := ⟨[tA, tB, tC], [], 4, 1⟩

/- ---------------- C1 ---------------- -/

/-- Claim C1: for every stored set of tickets and every (possibly empty)
filter set, `list_tickets` returns the matching tickets sorted by status
rank (open 0, in_progress 1, anything else 2), then priority rank
(urgent 0, high 1, medium 2, anything else 3), then `created_at`
descending; the fixture A(open,low,1), B(open,urgent,2),
C(closed,urgent,3) lists as [B, A, C]. -/
theorem list_tickets_ordering :
    (∀ (s : Store) (f : Filters),
        List.Perm (list_tickets s f) (s.tickets.filter (matchesFilters f)) ∧
        List.Pairwise TicketLe (list_tickets s f)) ∧
    list_tickets fixtureStore {} = [tB, tA, tC] := by
  refine ⟨fun s f => ⟨sortBy_perm listLe _, ?_⟩, by decide⟩
  exact (sortBy_pairwise listLe listLe_total listLe_trans _).imp
    (fun h => of_decide_eq_true h)

/- ---------------- C2, C3, C4 ---------------- -/

/-- A concrete store with one open ticket (id 1), used as a witness
input. -/
def T1 : Ticket :=
  ⟨1, "printer broken", "no toner", "open", "medium", some "alice",
    none, some "hw,printer", "2024-01-01T00:00:00Z", "2024-01-01T00:00:00Z"⟩

/-- A store holding just `T1`. -/
def S1 : Store := ⟨[T1], [], 2, 1⟩

/-- A patch touching `title` and `status` only. -/
def P2 : Patch := { title := some "printer fixed", status := some "closed" }

/-- A patch whose status value violates the CHECK constraint. -/
def Pbad : Patch := { status := some "bogus" }

/-- The store produced by a successful non-empty UPDATE: the row with
the target id is rewritten through `applyPatch`, every other row and the
whole comments table are untouched. -/
def patchedStore (s : Store) (i : Nat) (p : Patch) (now : String) : Store :=
  { s with
    tickets := s.tickets.map
      (fun u => if u.id == i then applyPatch u p now else u) }

/-- Claim C2 (amended): for an existing ticket id and a non-empty patch
whose patched row still satisfies the CHECK constraints, `update_ticket`
rewrites exactly the row with that id, assigning precisely the patched
columns plus `updated_at := now`, and leaving every absent column —
`created_at` included — unchanged. -/
theorem update_ticket_applies_patch (s : Store) (i : Nat) (p : Patch)
    (now : String) (t : Ticket)
    (hfind : s.tickets.find? (fun u => u.id == i) = some t)
    (hne : p.isEmpty = false)
    (hck : checkOk (applyPatch t p now) = true) :
    update_ticket s i p now = .ok (patchedStore s i p now, true) ∧
    (patchedStore s i p now).comments = s.comments ∧
    (applyPatch t p now).title = p.title.getD t.title ∧
    (applyPatch t p now).description = p.description.getD t.description ∧
    (applyPatch t p now).status = p.status.getD t.status ∧
    (applyPatch t p now).priority = p.priority.getD t.priority ∧
    (applyPatch t p now).requester = p.requester.getD t.requester ∧
    (applyPatch t p now).assignee = p.assignee.getD t.assignee ∧
    (applyPatch t p now).tags = p.tags.getD t.tags ∧
    (applyPatch t p now).id = t.id ∧
    (applyPatch t p now).created_at = t.created_at ∧
    (applyPatch t p now).updated_at = now := by
  refine ⟨?_, rfl, rfl, rfl, rfl, rfl, rfl, rfl, rfl, rfl, rfl, rfl⟩
  simp [update_ticket, hne, hfind, hck, patchedStore]

/-- Witness for C2: the amended theorem applied to the store `S1` and
the patch `P2`. -/
theorem update_ticket_applies_patch_witness :
    update_ticket S1 1 P2 "2024-02-02T00:00:00Z" =
      .ok (patchedStore S1 1 P2 "2024-02-02T00:00:00Z", true) :=
  (update_ticket_applies_patch S1 1 P2 "2024-02-02T00:00:00Z" T1
    (by decide) (by decide) (by decide)).1

/-- Counterexample to C2 as stated: ticket id 1 exists and the patch
`Pbad` is non-empty, yet `update_ticket` writes nothing — the CHECK
constraint on `status` rejects the UPDATE. -/
theorem update_ticket_claim_counterexample :
    (S1.tickets.find? (fun u => u.id == 1)).isSome = true ∧
    Pbad.isEmpty = false ∧
    update_ticket S1 1 Pbad "2024-02-02T00:00:00Z" =
      .error .constraintViolation := by decide

/-- Claim C3: with the empty patch, `update_ticket` returns false for
every id and performs no store write at all. -/
theorem update_ticket_empty_patch (s : Store) (i : Nat) (now : String) :
    update_ticket s i {} now = .ok (s, false) := rfl

/-- Claim C4: when no stored ticket has the given id, `update_ticket`
returns false and leaves the entire store unchanged, for every patch. -/
theorem update_ticket_absent_id (s : Store) (i : Nat) (p : Patch)
    (now : String) (h : ∀ t ∈ s.tickets, t.id ≠ i) :
    update_ticket s i p now = .ok (s, false) := by
  have hf : s.tickets.find? (fun t => t.id == i) = none := by
    apply List.find?_eq_none.mpr
    intro t ht
    simpa using h t ht
  unfold update_ticket
  rw [hf]
  split <;> rfl

/-- Witness for C4: id 2 is absent from `S1`. -/
theorem update_ticket_absent_id_witness :
    update_ticket S1 2 P2 "2024-02-02T00:00:00Z" = .ok (S1, false) :=
  update_ticket_absent_id S1 2 P2 "2024-02-02T00:00:00Z" (by decide)

/- ---------------- C8, C9 ---------------- -/

/-- Claim C8: appending a comment under a ticket id that does not exist
fails with the storage constraint violation (the foreign key rejects the
INSERT) and the comment store is unchanged. -/
theorem add_comment_absent_id (s : Store) (i : Nat) (a : Option String)
    (b now : String) (h : ∀ t ∈ s.tickets, t.id ≠ i) :
    add_comment s i a b now = .error .constraintViolation ∧
    (commit s (add_comment s i a b now)).comments = s.comments := by
  have hx : s.tickets.any (fun t => t.id == i) = false := by
    rw [List.any_eq_false]
    intro t ht
    simpa using h t ht
  constructor
  · simp [add_comment, hx]
  · simp [add_comment, hx, commit]

/-- Witness for C8: no ticket of `S1` has id 7. -/
theorem add_comment_absent_id_witness :
    add_comment S1 7 (some "bob") "ping" "2024-03-03T00:00:00Z" =
      .error .constraintViolation ∧
    (commit S1 (add_comment S1 7 (some "bob") "ping"
        "2024-03-03T00:00:00Z")).comments = S1.comments :=
  add_comment_absent_id S1 7 (some "bob") "ping" "2024-03-03T00:00:00Z"
    (by decide)

/-- Claim C9: appending a comment under an existing ticket id appends
exactly one comment row (stamped with `now`) and leaves every field of
every ticket — `updated_at` included — unchanged. -/
theorem add_comment_appends (s : Store) (i : Nat) (a : Option String)
    (b now : String) (hex : s.tickets.any (fun t => t.id == i) = true)
    (hb : b ≠ "") :
    add_comment s i a b now =
      .ok ({ s with
              comments := s.comments ++ [⟨s.nextCommentId, i, a, b, now⟩],
              nextCommentId := s.nextCommentId + 1 }, s.nextCommentId) ∧
    (commit s (add_comment s i a b now)).tickets = s.tickets := by
  constructor
  · simp [add_comment, hex]
  · simp [add_comment, hex, commit]

/-- Witness for C9: a comment appended under the existing id 1 of `S1`. -/
theorem add_comment_appends_witness :
    add_comment S1 1 (some "bob") "done?" "2024-03-03T00:00:00Z" =
      .ok ({ S1 with
              comments := S1.comments ++
                [⟨S1.nextCommentId, 1, some "bob", "done?",
                  "2024-03-03T00:00:00Z"⟩],
              nextCommentId := S1.nextCommentId + 1 }, S1.nextCommentId) ∧
    (commit S1 (add_comment S1 1 (some "bob") "done?"
        "2024-03-03T00:00:00Z")).tickets = S1.tickets :=
  add_comment_appends S1 1 (some "bob") "done?" "2024-03-03T00:00:00Z"
    (by decide) (by decide)

/- ---------------- C5 ---------------- -/

theorem TimeInv_mono {s : Store} {c c2 : String} (h : TimeInv s c)
    (hc : c ≤ c2) : TimeInv s c2 := by
  intro t ht
  exact ⟨(h t ht).1, le_trans (h t ht).2 hc⟩

theorem step_inv (s : Store) (c now : String) (op : Op)
    (hInv : TimeInv s c) (hc : c ≤ now) : TimeInv (step s op now) now := by
  cases op with
  | create nt =>
    simp only [step, create_ticket]
    split
    · simp only [commit]
      intro t ht
      rcases List.mem_append.1 ht with ht | ht
      · exact ⟨(hInv t ht).1, le_trans (hInv t ht).2 hc⟩
      · rcases List.mem_singleton.1 ht with rfl
        exact ⟨le_refl _, le_refl _⟩
    · simp only [commit]
      exact TimeInv_mono hInv hc
  | update i p =>
    simp only [step, update_ticket]
    split
    · simp only [commit]
      exact TimeInv_mono hInv hc
    · split
      · simp only [commit]
        exact TimeInv_mono hInv hc
      · split
        · simp only [commit]
          intro t ht
          rcases List.mem_map.1 ht with ⟨u, hu, rfl⟩
          by_cases hid : u.id == i
          · simp only [hid, if_true]
            refine ⟨?_, le_refl _⟩
            show u.created_at ≤ now
            exact le_trans (hInv u hu).1 (le_trans (hInv u hu).2 hc)
          · simp only [hid, if_false]
            exact ⟨(hInv u hu).1, le_trans (hInv u hu).2 hc⟩
        · simp only [commit]
          exact TimeInv_mono hInv hc
  | comment i a b =>
    simp only [step, add_comment]
    split
    · simp only [commit]
      exact TimeInv_mono hInv hc
    · simp only [commit]
      exact TimeInv_mono hInv hc
  | read i => exact TimeInv_mono hInv hc

theorem run_inv : ∀ (ops : List (Op × String)) (s : Store) (c : String),
    TimeInv s c → timesMono c (ops.map Prod.snd) →
    ∀ t ∈ (run s ops).tickets, t.created_at ≤ t.updated_at
  | [], _, _, hInv, _, t, ht => (hInv t ht).1
  | (op, now) :: rest, s, c, hInv, hm, t, ht =>
    run_inv rest (step s op now) now
      (step_inv s c now op hInv hm.1) hm.2 t ht

/-- Claim C5: along any trace of create / update / comment / read calls
whose observed clock values are non-decreasing, every ticket of the
resulting store satisfies `created_at ≤ updated_at`; `create_ticket`
establishes the invariant by stamping the new row with
`created_at = updated_at = now`. -/
theorem created_le_updated :
    (∀ (s : Store) (c : String) (ops : List (Op × String)),
        TimeInv s c → timesMono c (ops.map Prod.snd) →
        ∀ t ∈ (run s ops).tickets, t.created_at ≤ t.updated_at) ∧
    (∀ (s : Store) (nt : NewTicket) (now : String) (s2 : Store) (i : Nat),
        create_ticket s nt now = .ok (s2, i) →
        ∃ row : Ticket, s2.tickets = s.tickets ++ [row] ∧
          row.created_at = now ∧ row.updated_at = now) := by
  constructor
  · intro s c ops hInv hm
    exact run_inv ops s c hInv hm
  · intro s nt now s2 i h
    simp only [create_ticket] at h
    split at h
    · cases h
      exact ⟨_, rfl, rfl, rfl⟩
    · exact Except.noConfusion h

/-- The empty freshly-created store. -/
def S0 : Store := ⟨[], [], 1, 1⟩

/-- A demonstration trace: create a ticket at time 1, patch it at
time 2, comment at time 2. -/
def demoTrace : List (Op × String) :=
  [(Op.create ⟨"t", "", "open", "medium", none, none, none⟩, "1"),
   (Op.update 1 P2, "2"),
   (Op.comment 1 none "hi", "2")]

/-- Every ticket of the store satisfies the audit-timestamp invariant,
as a boolean check. -/
def allCreatedLeUpdated (s : Store) : Bool :=
  s.tickets.all (fun t => decide (t.created_at ≤ t.updated_at))

/-- Witness for C5: the invariant theorem applied to the empty store and
the demonstration trace. -/
theorem created_le_updated_witness :
    allCreatedLeUpdated (run S0 demoTrace) = true := by
  rw [allCreatedLeUpdated, List.all_eq_true]
  intro t ht
  refine decide_eq_true (created_le_updated.1 S0 "1" demoTrace ?_ ?_ t ht)
  · intro u hu
    exact absurd hu (List.not_mem_nil u)
  · exact ⟨le_refl _,
      String.le_iff_toList_le.mpr (by decide),
      String.le_iff_toList_le.mpr (by decide), trivial⟩

/- ---------------- LIKE semantics (C6, C10) ---------------- -/

theorem likeAux_congr : ∀ (n m : Nat) (ps s : List Char),
    ps.length + s.length < n → ps.length + s.length < m →
    likeAux n ps s = likeAux m ps s
  | 0, _, _, _, hn, _ => absurd hn (Nat.not_lt_zero _)
  | _ + 1, 0, _, _, _, hm => absurd hm (Nat.not_lt_zero _)
  | n + 1, m + 1, [], s, _, _ => rfl
  | n + 1, m + 1, p :: ps2, s, hn, hm => by
    cases s with
    | nil =>
      simp only [List.length_cons, List.length_nil] at hn hm
      simp only [likeAux]
      by_cases hp : p = '%'
      · rw [if_pos hp, if_pos hp,
          likeAux_congr n m ps2 [] (by simp; omega) (by simp; omega)]
      · rw [if_neg hp, if_neg hp]
    | cons c s2 =>
      simp only [List.length_cons] at hn hm
      simp only [likeAux]
      by_cases hp : p = '%'
      · rw [if_pos hp, if_pos hp,
          likeAux_congr n m ps2 (c :: s2)
            (by simp only [List.length_cons]; omega)
            (by simp only [List.length_cons]; omega),
          likeAux_congr n m (p :: ps2) s2
            (by simp only [List.length_cons]; omega)
            (by simp only [List.length_cons]; omega)]
      · rw [if_neg hp, if_neg hp]
        by_cases hu : p = '_'
        · rw [if_pos hu, if_pos hu,
            likeAux_congr n m ps2 s2 (by omega) (by omega)]
        · rw [if_neg hu, if_neg hu,
            likeAux_congr n m ps2 s2 (by omega) (by omega)]

theorem likeAux_adequate (n : Nat) (ps s : List Char)
    (h : ps.length + s.length < n) : likeAux n ps s = likeMatch ps s :=
  likeAux_congr n (ps.length + s.length + 1) ps s h (by omega)

theorem likeMatch_nil_pat (s : List Char) : likeMatch [] s = s.isEmpty := rfl

theorem likeMatch_pct (ps s : List Char) :
    likeMatch ('%' :: ps) s =
      (likeMatch ps s ||
        match s with
        | [] => false
        | _ :: s2 => likeMatch ('%' :: ps) s2) := by
  cases s with
  | nil =>
    have key : ∀ F : Nat, likeAux (F + 1) ('%' :: ps) [] =
        (likeAux F ps [] || false) := by
      intro F
      simp only [likeAux]
      simp
    show likeAux (('%' :: ps).length + ([] : List Char).length + 1)
        ('%' :: ps) [] = (likeMatch ps [] || false)
    rw [key, likeAux_adequate _ ps []
      (by simp only [List.length_cons, List.length_nil]; omega)]
  | cons c s2 =>
    have key : ∀ F : Nat, likeAux (F + 1) ('%' :: ps) (c :: s2) =
        (likeAux F ps (c :: s2) || likeAux F ('%' :: ps) s2) := by
      intro F
      simp only [likeAux]
      simp
    show likeAux (('%' :: ps).length + (c :: s2).length + 1)
        ('%' :: ps) (c :: s2) = (likeMatch ps (c :: s2) || likeMatch ('%' :: ps) s2)
    rw [key, likeAux_adequate _ ps (c :: s2)
        (by simp only [List.length_cons]; omega),
      likeAux_adequate _ ('%' :: ps) s2
        (by simp only [List.length_cons]; omega)]

theorem likeMatch_cons_nil (p : Char) (ps : List Char) (hp : p ≠ '%') :
    likeMatch (p :: ps) [] = false := by
  have key : ∀ F : Nat, likeAux (F + 1) (p :: ps) [] = false := by
    intro F
    simp only [likeAux]
    rw [if_neg hp]
  show likeAux ((p :: ps).length + ([] : List Char).length + 1) (p :: ps) [] = false
  rw [key]

theorem likeMatch_cons (p : Char) (ps : List Char) (c : Char)
    (s : List Char) (hp : p ≠ '%') :
    likeMatch (p :: ps) (c :: s) =
      if p = '_' then likeMatch ps s
      else ((asciiLower p == asciiLower c) && likeMatch ps s) := by
  have key : ∀ F : Nat, likeAux (F + 1) (p :: ps) (c :: s) =
      (if p = '_' then likeAux F ps s
       else ((asciiLower p == asciiLower c) && likeAux F ps s)) := by
    intro F
    simp only [likeAux]
    rw [if_neg hp]
  show likeAux ((p :: ps).length + (c :: s).length + 1) (p :: ps) (c :: s) = _
  rw [key, likeAux_adequate _ ps s (by simp only [List.length_cons]; omega)]

theorem like_pct_only : ∀ s : List Char, likeMatch ['%'] s = true
  | [] => by rw [likeMatch_pct]; rfl
  | c :: s2 => by
    rw [likeMatch_pct]
    show (likeMatch [] (c :: s2) || likeMatch ['%'] s2) = true
    rw [like_pct_only s2, likeMatch_nil_pat]
    rfl

theorem like_prefix : ∀ (q : List Char), (∀ c ∈ q, c ≠ '%' ∧ c ≠ '_') →
    ∀ s, likeMatch (q ++ ['%']) s = isPrefixB q s
  | [], _, s => by
    simp only [List.nil_append, like_pct_only s, isPrefixB]
  | a :: q2, hq, [] => by
    have ha := hq a (List.mem_cons_self a q2)
    rw [List.cons_append, likeMatch_cons_nil a (q2 ++ ['%']) ha.1]
    rfl
  | a :: q2, hq, b :: s2 => by
    have ha := hq a (List.mem_cons_self a q2)
    rw [List.cons_append, likeMatch_cons a (q2 ++ ['%']) b s2 ha.1,
      if_neg ha.2,
      like_prefix q2 (fun c hc => hq c (List.mem_cons_of_mem a hc)) s2]
    rfl

theorem like_sub : ∀ (q : List Char), (∀ c ∈ q, c ≠ '%' ∧ c ≠ '_') →
    ∀ s, likeMatch ('%' :: (q ++ ['%'])) s = isSubB q s
  | q, hq, [] => by
    rw [likeMatch_pct, like_prefix q hq []]
    cases q with
    | nil => rfl
    | cons a q2 => rfl
  | q, hq, c :: s2 => by
    rw [likeMatch_pct, like_prefix q hq (c :: s2)]
    show (isPrefixB q (c :: s2) || likeMatch ('%' :: (q ++ ['%'])) s2) =
      isSubB q (c :: s2)
    rw [like_sub q hq s2]
    rfl

theorem likeStr_eq_contains (q x : String) (hq : noWild q = true) :
    likeStr ("%" ++ q ++ "%") x = containsCI q x := by
  have hq2 : ∀ c ∈ q.data, c ≠ '%' ∧ c ≠ '_' := by
    intro c hc
    have h := List.all_eq_true.1 hq c hc
    simp only [Bool.and_eq_true, Bool.not_eq_eq_eq_not, Bool.not_true,
      beq_eq_false_iff_ne, ne_eq] at h
    exact h
  show likeMatch ("%" ++ q ++ "%").data x.data = isSubB q.data x.data
  have hdata : ("%" ++ q ++ "%").data = '%' :: (q.data ++ ['%']) := rfl
  rw [hdata, like_sub q.data hq2 x.data]

theorem likeRow_eq_ticketMatches (q : String) (t : Ticket)
    (hq : noWild q = true) :
    likeRow ("%" ++ q ++ "%") t = ticketMatches q t := by
  unfold likeRow ticketMatches
  rw [likeStr_eq_contains q t.title hq, likeStr_eq_contains q t.description hq]
  cases t.tags with
  | none => rfl
  | some tg =>
    show (containsCI q t.title || containsCI q t.description ||
        likeStr ("%" ++ q ++ "%") tg) =
      (containsCI q t.title || containsCI q t.description || containsCI q tg)
    rw [likeStr_eq_contains q tg hq]

/-- Claim C6 (amended): for every query that contains no `LIKE`
metacharacter (`%` or `_`), `search` returns exactly the tickets whose
`title`, `description` or `tags` contains the query as a
case-insensitive (ASCII) substring, ordered by `updated_at`
descending.  For queries with metacharacters the SQL `LIKE` wildcards
apply instead (see the counterexample). -/
theorem search_semantics (s : Store) (q : String) (hq : noWild q = true) :
    List.Perm (search s q) (s.tickets.filter (ticketMatches q)) ∧
    List.Pairwise updatedDesc
      (search s q) := by
  have hfe : s.tickets.filter (likeRow ("%" ++ q ++ "%")) =
      s.tickets.filter (ticketMatches q) := by
    apply List.filter_congr
    intro t _
    exact likeRow_eq_ticketMatches q t hq
  constructor
  · show List.Perm (sortBy searchLe (s.tickets.filter (likeRow _))) _
    rw [hfe]
    exact sortBy_perm searchLe _
  · exact (sortBy_pairwise searchLe searchLe_total searchLe_trans _).imp
      (fun h => of_decide_eq_true h)

/-- A ticket whose only occurrence of "beta" is in `tags` (and with an
upper-case B there). -/
def Xtag : Ticket :=
  ⟨1, "login page", "cannot log in", "open", "high", none, none,
    some "auth,Beta", "1", "1"⟩

/-- A store holding just `Xtag`. -/
def Stag : Store := ⟨[Xtag], [], 2, 1⟩

/-- Witness for C6: the amended theorem applied to the query "beta" on
`Stag`, where the match is tags-only and case-insensitive. -/
theorem search_semantics_witness :
    (List.Perm (search Stag "beta") (Stag.tickets.filter (ticketMatches "beta")) ∧
      List.Pairwise updatedDesc
        (search Stag "beta")) ∧
    search Stag "beta" = [Xtag] :=
  ⟨search_semantics Stag "beta" (by decide), by decide⟩

/-- A ticket titled "abc" with empty description and no tags. -/
def Xabc : Ticket := ⟨1, "abc", "", "open", "medium", none, none, none, "1", "1"⟩

/-- A store holding just `Xabc`. -/
def Sabc : Store := ⟨[Xabc], [], 2, 1⟩

/-- Counterexample to C6 as stated: the query "a_c" is not a substring
of any field of the stored ticket, yet `search` returns it, because the
query string is spliced into the `LIKE` pattern unescaped and `_`
matches any character. -/
theorem search_claim_counterexample :
    search Sabc "a_c" = [Xabc] ∧ ticketMatches "a_c" Xabc = false := by decide

/-- Claim C10: `search` with the empty query returns every stored
ticket — `LIKE '%%'` matches every non-NULL `title` — ordered by
`updated_at` descending; the layer does not special-case the empty
string. -/
theorem search_empty_query (s : Store) :
    List.Perm (search s "") s.tickets ∧
    List.Pairwise updatedDesc
      (search s "") := by
  have hfe : s.tickets.filter (likeRow ("%" ++ "" ++ "%")) = s.tickets := by
    rw [List.filter_eq_self]
    intro t _
    have htitle : likeStr ("%" ++ "" ++ "%") t.title = true := by
      show likeMatch ['%', '%'] t.title.data = true
      rw [likeMatch_pct, like_pct_only]
      simp
    unfold likeRow
    rw [htitle]
    simp
  constructor
  · show List.Perm (sortBy searchLe (s.tickets.filter (likeRow _))) _
    rw [hfe]
    exact sortBy_perm searchLe _
  · exact (sortBy_pairwise searchLe searchLe_total searchLe_trans _).imp
      (fun h => of_decide_eq_true h)

/- ---------------- CSV round trip (C7) ---------------- -/

theorem needsQuote_false {c : Char} (h : needsQuote c = false) :
    c ≠ ',' ∧ c ≠ '"' ∧ c ≠ '\n' ∧ c ≠ '\r' := by
  refine ⟨?_, ?_, ?_, ?_⟩ <;> intro hc <;> subst hc <;> simp [needsQuote] at h

theorem parseField_eq_raw (cs : List Char) (h : ∀ cs2, cs ≠ '"' :: cs2) :
    parseField cs = parseRawField cs := by
  unfold parseField
  split
  case h_1 cs2 => exact absurd rfl (h cs2)
  case h_2 => rfl

theorem doubleQ_parse : ∀ (f rest : List Char), (∀ r2, rest ≠ '"' :: r2) →
    parseQuotedField (doubleQ f ++ '"' :: rest) = (f, rest)
  | [], rest, h => by
    show parseQuotedField ('"' :: rest) = ([], rest)
    cases rest with
    | nil => rfl
    | cons c2 r2 =>
      have hc2 : c2 ≠ '"' := fun hc => h r2 (by rw [hc])
      rw [parseQuotedField.eq_def]
      simp [hc2]
  | a :: f2, rest, h => by
    simp only [doubleQ]
    by_cases ha : a = '"'
    · rw [if_pos ha]
      subst ha
      show parseQuotedField ('"' :: '"' :: (doubleQ f2 ++ '"' :: rest)) =
        ('"' :: f2, rest)
      rw [parseQuotedField.eq_def]
      simp [doubleQ_parse f2 rest h]
    · rw [if_neg ha]
      show parseQuotedField (a :: (doubleQ f2 ++ '"' :: rest)) = (a :: f2, rest)
      rw [parseQuotedField.eq_def]
      simp [ha, doubleQ_parse f2 rest h]

/-- The text directly after a serialized field is empty or starts with a
separator. -/
def restOk (rest : List Char) : Prop :=
  rest = [] ∨ rest.head? = some ',' ∨ rest.head? = some '\n'

theorem parseRawField_exact : ∀ (f rest : List Char),
    (∀ c ∈ f, needsQuote c = false) → restOk rest →
    parseRawField (f ++ rest) = (f, rest)
  | [], rest, _, hrest => by
    cases rest with
    | nil => rfl
    | cons c r2 =>
      rcases hrest with h | h | h
      · exact absurd h (by simp)
      · simp only [List.head?_cons, Option.some.injEq] at h
        show parseRawField (c :: r2) = ([], c :: r2)
        simp [parseRawField, h]
      · simp only [List.head?_cons, Option.some.injEq] at h
        show parseRawField (c :: r2) = ([], c :: r2)
        simp [parseRawField, h]
  | a :: f2, rest, hf, hrest => by
    rcases needsQuote_false (hf a (List.mem_cons_self a f2)) with ⟨h1, _, h3, _⟩
    show parseRawField (a :: (f2 ++ rest)) = (a :: f2, rest)
    simp only [parseRawField]
    rw [if_neg (by rintro (h | h) <;> [exact h1 h; exact h3 h])]
    rw [parseRawField_exact f2 rest
      (fun c hc => hf c (List.mem_cons_of_mem a hc)) hrest]

theorem parseField_exact (f rest : List Char) (hrest : restOk rest) :
    parseField (escapeField f ++ rest) = (f, rest) := by
  unfold escapeField
  split
  case isTrue hq =>
    show parseField ('"' :: ((doubleQ f ++ ['"']) ++ rest)) = (f, rest)
    show parseQuotedField ((doubleQ f ++ ['"']) ++ rest) = (f, rest)
    rw [List.append_assoc, List.singleton_append]
    apply doubleQ_parse
    intro r2 hr
    rcases hrest with h | h | h <;> rw [hr] at h <;> simp at h
  case isFalse hq =>
    have hf : ∀ c ∈ f, needsQuote c = false := by
      intro c hc
      cases h2 : needsQuote c
      · rfl
      · exact absurd (List.any_eq_true.2 ⟨c, hc, h2⟩) hq
    rw [parseField_eq_raw]
    · exact parseRawField_exact f rest hf hrest
    · intro cs2 hcs
      cases f with
      | nil =>
        simp only [List.nil_append] at hcs
        rcases hrest with h | h | h <;> rw [hcs] at h <;> simp at h
      | cons a f2 =>
        simp only [List.cons_append, List.cons.injEq] at hcs
        rcases needsQuote_false (hf a (List.mem_cons_self a f2)) with ⟨_, h2, _, _⟩
        exact h2 hcs.1

theorem writeRecord_cons_cons (f f2 : List Char) (fs : List (List Char)) :
    writeRecord (f :: f2 :: fs) =
      escapeField f ++ ',' :: writeRecord (f2 :: fs) := by
  show (escapeField f ++ ',' :: joinComma (escapeField f2 :: fs.map escapeField))
      ++ ['\n'] = _
  simp [writeRecord, List.append_assoc]

theorem parseRecordAux_exact : ∀ (fs : List (List Char)) (fuel : Nat)
    (rest : List Char), fs ≠ [] → fs.length ≤ fuel →
    parseRecordAux fuel (writeRecord fs ++ rest) = (fs, rest)
  | [], _, _, h, _ => absurd rfl h
  | [f], fuel, rest, _, hfuel => by
    cases fuel with
    | zero => simp at hfuel
    | succ F =>
      show parseRecordAux (F + 1) ((escapeField f ++ ['\n']) ++ rest) = ([f], rest)
      rw [List.append_assoc, List.singleton_append]
      simp only [parseRecordAux]
      rw [parseField_exact f ('\n' :: rest) (Or.inr (Or.inr rfl))]
      simp
  | f :: f2 :: fs, fuel, rest, _, hfuel => by
    cases fuel with
    | zero => simp at hfuel
    | succ F =>
      rw [writeRecord_cons_cons, List.append_assoc, List.cons_append]
      simp only [parseRecordAux]
      rw [parseField_exact f (',' :: (writeRecord (f2 :: fs) ++ rest))
        (Or.inr (Or.inl rfl))]
      simp only []
      rw [parseRecordAux_exact (f2 :: fs) F rest (by simp)
        (by simp only [List.length_cons] at hfuel ⊢; omega)]
      simp

theorem writeRecord_length_pos (fs : List (List Char)) :
    0 < (writeRecord fs).length := by
  show 0 < (joinComma (fs.map escapeField) ++ ['\n']).length
  simp

theorem writeRecord_length_ge : ∀ fs : List (List Char),
    fs.length ≤ (writeRecord fs).length
  | [] => by simp
  | [f] => by
    show 1 ≤ (joinComma [escapeField f] ++ ['\n']).length
    simp
  | f :: f2 :: fs => by
    rw [writeRecord_cons_cons]
    have h := writeRecord_length_ge (f2 :: fs)
    simp only [List.length_append, List.length_cons] at h ⊢
    omega

theorem parseCsvAux_exact : ∀ (rs : List (List (List Char))) (fuel : Nat),
    (∀ r ∈ rs, r ≠ []) → rs.length ≤ fuel →
    parseCsvAux fuel (writeCsv rs) = rs
  | [], fuel, _, _ => by cases fuel <;> rfl
  | r :: rs, fuel, hne, hfuel => by
    cases fuel with
    | zero => simp at hfuel
    | succ F =>
      have hr : r ≠ [] := hne r (List.mem_cons_self r rs)
      have hlen : r.length ≤ (writeCsv (r :: rs)).length + 1 := by
        have h1 := writeRecord_length_ge r
        have h0 : writeCsv (r :: rs) = writeRecord r ++ writeCsv rs := rfl
        rw [h0]
        simp only [List.length_append]
        omega
      have hparse : parseRecordAux ((writeCsv (r :: rs)).length + 1)
          (writeCsv (r :: rs)) = (r, writeCsv rs) :=
        parseRecordAux_exact r ((writeCsv (r :: rs)).length + 1)
          (writeCsv rs) hr hlen
      rcases hcs : writeCsv (r :: rs) with _ | ⟨c, cs2⟩
      · have := writeRecord_length_pos r
        have h0 : writeCsv (r :: rs) = writeRecord r ++ writeCsv rs := rfl
        rw [hcs] at h0
        have h2 := congrArg List.length h0
        simp only [List.length_nil, List.length_append] at h2
        omega
      · simp only [parseCsvAux]
        rw [← hcs, hparse]
        simp only []
        rw [parseCsvAux_exact rs F (fun x hx => hne x (List.mem_cons_of_mem r hx))
          (by simp only [List.length_cons] at hfuel; omega)]

theorem csvParse_writeCsv (rs : List (List String))
    (hne : ∀ r ∈ rs, r ≠ []) :
    csvParse ⟨writeCsv (rs.map (fun r => r.map String.data))⟩ = rs := by
  unfold csvParse
  rw [parseCsvAux_exact (rs.map (fun r => r.map String.data)) _ ?hne ?hfuel]
  case hne =>
    intro r hr
    rcases List.mem_map.1 hr with ⟨r0, hr0, rfl⟩
    intro hnil
    exact hne r0 hr0 (List.map_eq_nil.1 hnil)
  case hfuel =>
    show (rs.map _).length ≤ (writeCsv (rs.map _)).length + 1
    clear hne
    generalize rs.map (fun r => r.map String.data) = L
    induction L with
    | nil => simp
    | cons r L ih =>
      have h1 := writeRecord_length_pos r
      have h2 : writeCsv (r :: L) = writeRecord r ++ writeCsv L := rfl
      rw [h2]
      simp only [List.length_cons, List.length_append]
      omega
  rw [List.map_map]
  have h3 : (fun r : List (List Char) => r.map List.asString) ∘
      (fun r : List String => r.map String.data) = id := by
    funext r
    show (r.map String.data).map List.asString = r
    rw [List.map_map]
    have h2 : List.asString ∘ String.data = id := by
      funext x
      exact String.asString_toList x
    rw [h2, List.map_id]
  rw [h3, List.map_id]

theorem list_tickets_nofilter_length (s : Store) :
    (list_tickets s {}).length = s.tickets.length := by
  have h1 := (sortBy_perm listLe (s.tickets.filter (matchesFilters {}))).length_eq
  have h2 : s.tickets.filter (matchesFilters {}) = s.tickets :=
    List.filter_eq_self.mpr (fun a _ => rfl)
  show (sortBy listLe (s.tickets.filter (matchesFilters {}))).length = _
  rw [h1, h2]

/-- Claim C7 (amended): for every store holding at least one ticket,
`export_csv_bytes` yields the header record of all ten column names
followed by one record per ticket in ascending-id order, each carrying
the raw column values (enums as their raw strings, timestamps as
stored); parsing the CSV text back recovers exactly those records, and
their number equals one plus the number of rows of `list_tickets` with
no filters.  With zero tickets the claim fails: the pandas DataFrame has
no columns and the export is a single blank line (see the
counterexample). -/
theorem export_roundtrip (s : Store) (h : s.tickets ≠ []) :
    csvParse (export_csv_bytes s) =
      csvHeader :: (sortById s.tickets).map ticketRecord ∧
    (csvParse (export_csv_bytes s)).length = (list_tickets s {}).length + 1 ∧
    List.Pairwise idAsc (sortById s.tickets) ∧
    List.Perm (sortById s.tickets) s.tickets := by
  have hne : s.tickets.isEmpty = false := by
    cases hts : s.tickets with
    | nil => exact absurd hts h
    | cons a l => rfl
  have hmain : csvParse (export_csv_bytes s) =
      csvHeader :: (sortById s.tickets).map ticketRecord := by
    unfold export_csv_bytes
    rw [if_neg (by rw [hne]; exact Bool.false_ne_true)]
    apply csvParse_writeCsv
    intro r hr
    rcases List.mem_cons.1 hr with rfl | hr
    · simp [csvHeader]
    · rcases List.mem_map.1 hr with ⟨t, _, rfl⟩
      simp [ticketRecord]
  refine ⟨hmain, ?_, ?_, ?_⟩
  · rw [hmain, list_tickets_nofilter_length]
    have h4 := (sortBy_perm idLe s.tickets).length_eq
    show ((sortById s.tickets).map ticketRecord).length + 1 = _
    rw [List.length_map]
    show (sortBy idLe s.tickets).length + 1 = _
    rw [h4]
  · exact (sortBy_pairwise idLe idLe_total idLe_trans s.tickets).imp
      (fun h5 => of_decide_eq_true h5)
  · exact sortBy_perm idLe s.tickets

/-- Witness for C7: the amended round-trip theorem applied to the store
`S1`, whose one ticket has a comma inside `tags` and so exercises the
quoting path. -/
theorem export_roundtrip_witness :
    csvParse (export_csv_bytes S1) =
      csvHeader :: (sortById S1.tickets).map ticketRecord ∧
    (csvParse (export_csv_bytes S1)).length = (list_tickets S1 {}).length + 1 ∧
    List.Pairwise idAsc (sortById S1.tickets) ∧
    List.Perm (sortById S1.tickets) S1.tickets :=
  export_roundtrip S1 (by decide)

/-- Counterexample to C7 as stated: with no stored tickets,
`pd.DataFrame([])` has no columns and `to_csv` emits a single blank
line, so the export of the empty store has no header row of column
names. -/
theorem export_claim_counterexample :
    export_csv_bytes S0 = "\n" ∧
    csvParse (export_csv_bytes S0) = [[""]] ∧
    (csvParse (export_csv_bytes S0)).head? ≠ some csvHeader := by decide

end Ticketing
